import Mathlib

/-!
Verification development for the RAG middleware
(`tools/server/rag_middleware.{hpp,cpp}` of llama-aurapai-RAG).

The middleware is shallowly embedded: JSON values (nlohmann::json) become an
inductive `Json`; the HTTP transport, the JSON text parser and the wall clock
are external libraries and are passed in as explicit oracles; C++ exceptions
become `Except String`; the one `std::mutex` is made explicit where a claim
needs it (a held-lock flag, and event traces for the locking discipline).
A `float` member that the C++ code can return without ever assigning is
modelled as `Option Rat` with `none` for "left uninitialized"; JSON numbers
are modelled as `Rat` (no claim depends on IEEE rounding).
-/

namespace Llama

/-- Model of `nlohmann::json` values.  Numbers are collapsed to `Rat`:
the middleware never performs arithmetic on them, it only moves them. -/
inductive Json where
  | null
  | bool (b : Bool)
  | num (n : Rat)
  | str (s : String)
  | arr (elems : List Json)
  | obj (fields : List (String × Json))
deriving Repr

/-- `j.contains(key)`: true only for objects that carry the key
(nlohmann returns `false` on every non-object type). -/
def Json.containsKey : Json → String → Bool
  | .obj fs, k => (fs.lookup k).isSome
  | _, _ => false

/-- Field lookup for objects, `none` when absent or not an object
(mirrors `find` on the underlying map). -/
def Json.getField : Json → String → Option Json
  | .obj fs, k => fs.lookup k
  | _, _ => none

/-- `operator[]` on a key that is known to be present (callers in the source
only use it under a `contains` guard). -/
def Json.getFieldD (j : Json) (k : String) : Json :=
  (j.getField k).getD .null

/-- `j.value(key, string_default)`: throws `type_error.306` on a non-object,
returns the default when the key is absent, and throws `type_error.302`
when the stored value is not a string (exception text is library-internal;
only the fact of the throw matters to the middleware). -/
def Json.valueStr : Json → String → String → Except String String
  | .obj fs, k, dflt =>
    match fs.lookup k with
    | none => .ok dflt
    | some (.str s) => .ok s
    | some _ => .error "type_error.302: type must be string"
  | _, _, _ => .error "type_error.306: cannot use value() with this type"

/-- `j.value(key, numeric_default)`: same shape as `valueStr`, for numbers
(`get<float>` accepts any JSON number and throws on every other type). -/
def Json.valueNum : Json → String → Rat → Except String Rat
  | .obj fs, k, dflt =>
    match fs.lookup k with
    | none => .ok dflt
    | some (.num n) => .ok n
    | some _ => .error "type_error.302: type must be number"
  | _, _, _ => .error "type_error.306: cannot use value() with this type"

/-- Range-for over a json value: arrays yield their elements, objects their
mapped values, `null` is the empty range, every other primitive is a
one-element range (nlohmann iterator semantics). -/
def Json.iterVals : Json → List Json
  | .arr xs => xs
  | .obj fs => fs.map Prod.snd
  | .null => []
  | v => [v]

/-- Replace-or-insert a field of an object's backing association list
(`m["content"] = v`); non-objects are left alone (never hit by the source,
which only assigns through an object it just matched on). -/
def setAssoc : List (String × Json) → String → Json → List (String × Json)
  | [], k, v => [(k, v)]
  | (k', v') :: fs, k, v =>
    if k' == k then (k, v) :: fs else (k', v') :: setAssoc fs k v

/-- `m[key] = v` on an object. -/
def Json.setField : Json → String → Json → Json
  | .obj fs, k, v => .obj (setAssoc fs k v)
  | j, _, _ => j

/-- `j.is_array()`. -/
def Json.isArr : Json → Bool
  | .arr _ => true
  | _ => false

/-! ## Data model (rag_middleware.hpp, lines 17-46) -/

/-- `struct RAGConfig` (hpp 17-25). -/
structure RAGConfig where
  aurapai_host : String := "localhost"
  aurapai_port : Int := 8001
  max_results : Int := 5
  similarity_threshold : Rat := 3/10
  include_tools : Bool := false
  timeout_ms : Int := 5000
  enabled : Bool := false
deriving Repr, DecidableEq

/-- `struct ContextChunk` (hpp 30-34). -/
structure ContextChunk where
  content : String
  source : String
  similarity : Rat
deriving Repr, DecidableEq

/-- `struct RAGResponse` (hpp 39-46).  `latency_ms` is a plain `float` with
no default initializer in the source; `none` models the member being left
uninitialized on paths that never assign it. -/
structure RAGResponse where
  augmented_context : String := ""
  chunks : List ContextChunk := []
  suggested_tools : List String := []
  latency_ms : Option Rat := none
  success : Bool := false
  error_message : String := ""
deriving Repr, DecidableEq

/-! ## ClientConnector (rag_middleware.cpp, lines 28-86, 173-185)

The `httplib` client object is reduced to the data the middleware derives
for it: resolved host, port and scheme (timeouts are derived from
`timeout_ms` by the transport library and play no role in any claim).
The one `std::mutex config_mutex_` is explicit: an operation entered while
the flag is already set by the same caller self-deadlocks
(`std::mutex` is non-recursive), modelled as `Except.error`. -/

/-- The connection target derived by `init_http_client` (cpp 63, 75, 78). -/
structure ClientHandle where
  host : List Char
  port : Int
  useHttps : Bool
deriving Repr, DecidableEq

/-- Middleware state: `config_`, `http_client_`, and whether
`config_mutex_` is currently held by the executing thread. -/
structure MState where
  cfg : RAGConfig
  client : Option ClientHandle
  lockHeld : Bool
deriving Repr, DecidableEq

def httpsScheme : List Char := "https://".data

def httpScheme : List Char := "http://".data

/-- cpp 52-54: `if (!host.empty() && host.back() == '/') host.pop_back();` -/
def stripTrailingSlash (h : List Char) : List Char :=
  if (!h.isEmpty) && (h.getLast? == some '/') then h.dropLast else h

/-- cpp 31-54: derive (host, port, scheme) from the configured host/port.
`find(s) == 0` on a `std::string` is the "begins with s" test. -/
def deriveTarget (host0 : List Char) (port0 : Int) : List Char × Int × Bool :=
  let step :=
    if httpsScheme.isPrefixOf host0 then
      (host0.drop 8, (443 : Int), true)       -- cpp 37-42
    else if httpScheme.isPrefixOf host0 then
      (host0.drop 7, (80 : Int), false)       -- cpp 43-49
    else
      (host0, port0, false)
  (stripTrailingSlash step.1, step.2.1, step.2.2)

/-- cpp 28-86 `init_http_client`: takes the lock (line 29), derives the
target and replaces `http_client_`.  Entered with the lock already held by
the caller it deadlocks. -/
def init_http_client (s : MState) : Except String MState :=
  if s.lockHeld then .error "deadlock: config_mutex_ already held"
  else
    let t := deriveTarget s.cfg.aurapai_host.data s.cfg.aurapai_port
    .ok { s with client := some ⟨t.1, t.2.1, t.2.2⟩ }

/-- cpp 173-185 `update_config`: takes the lock (line 174), compares the
raw configured fields (176-178), stores the new config (180) and calls
`init_http_client` (183) — while still holding the lock — exactly when a
hard field changed and the new config is enabled. -/
def update_config (s : MState) (c : RAGConfig) : Except String MState :=
  if s.lockHeld then .error "deadlock: config_mutex_ already held"
  else
    let held : MState := { s with lockHeld := true }
    let need_reinit : Bool :=
      (c.aurapai_host != held.cfg.aurapai_host) ||
      (c.aurapai_port != held.cfg.aurapai_port) ||
      (c.enabled != held.cfg.enabled)
    let stored : MState := { held with cfg := c }
    if need_reinit && c.enabled then
      match init_http_client stored with
      | .error e => .error e
      | .ok s' => .ok { s' with lockHeld := false }
    else
      .ok { stored with lockHeld := false }

/-! ## RequestDispatcher (rag_middleware.cpp, lines 187-221)

The transport library is an oracle `transport : endpoint → body → Option
HttpResp` (`none` = no response at all: connection refused, DNS failure,
timeout — cpp 204) and the JSON text parser is an oracle
`parseBody : String → Option Json` (`none` = `json::parse` threw, caught by
the surrounding try/catch — cpp 215, 217-219).  `make_request` also reports
the list of bodies actually handed to the transport, so that "no network
call" is a provable statement. -/

/-- A raw HTTP response as seen by the middleware: status code and body. -/
structure HttpResp where
  status : Int
  body : String
deriving Repr, DecidableEq

/-- cpp 187-221 `make_request`.  Returns the parsed payload (or `none` on
any failure) together with the bodies POSTed. -/
def make_request (clientPresent : Bool)
    (transport : String → Json → Option HttpResp)
    (parseBody : String → Option Json)
    (endpoint : String) (body : Json) : Option Json × List Json :=
  if !clientPresent then
    (none, [])                                  -- cpp 193-196
  else
    match transport endpoint body with
    | none => (none, [body])                    -- cpp 204-208
    | some r =>
      if r.status != 200 then (none, [body])    -- cpp 210-213
      else (parseBody r.body, [body])           -- cpp 215 (parse throw → 217-219)

/-! ## ResponseTranslator (rag_middleware.cpp, lines 223-261)

The C++ try block assigns into `response` field by field; the catch keeps
whatever was already assigned and only flips `success` and sets
`error_message`.  The embedding therefore threads the partially-filled
record through each step instead of using an all-or-nothing monad. -/

/-- cpp 234-238: extract one chunk (`value` with defaults; any wrongly
typed present field throws). -/
def parseChunk (cj : Json) : Except String ContextChunk := do
  let content ← cj.valueStr "content" ""
  let source ← cj.valueStr "source" "unknown"
  let sim ← cj.valueNum "similarity" 0
  pure ⟨content, source, sim⟩

/-- cpp 233-239: the chunk loop.  On a throw the chunks pushed so far are
kept (the C++ catch does not clear `response.chunks`). -/
def parseChunks : List Json → List ContextChunk × Option String
  | [] => ([], none)
  | cj :: rest =>
    match parseChunk cj with
    | .error e => ([], some e)
    | .ok c =>
      let r := parseChunks rest
      (c :: r.1, r.2)

/-- cpp 243-249: tool loop; only string entries are kept, nothing throws. -/
def collectTools (ts : List Json) : List String :=
  ts.filterMap fun t => match t with | .str s => some s | _ => none

/-- cpp 223-261 `parse_response`.  `success` is set to `true` up front
(line 225); each extraction step that throws jumps to the catch (254-258),
which flips `success`, prefixes the message with `"Parse error: "` and
returns the record with every already-assigned field still in place.
`latency_ms` starts out uninitialized (`none`), as in the C++ struct. -/
def parse_response (j : Json) : RAGResponse :=
  let r0 : RAGResponse :=
    { augmented_context := "", chunks := [], suggested_tools := [],
      latency_ms := none, success := true, error_message := "" }
  match j.valueStr "augmented_context" "" with   -- cpp 228
  | .error e => { r0 with success := false, error_message := "Parse error: " ++ e }
  | .ok ac =>
  let r1 := { r0 with augmented_context := ac }
  match j.valueNum "latency_ms" 0 with           -- cpp 229
  | .error e => { r1 with success := false, error_message := "Parse error: " ++ e }
  | .ok lm =>
  let r2 := { r1 with latency_ms := some lm }
  let chunkStep :=                               -- cpp 232-240
    if j.containsKey "chunks" then parseChunks (j.getFieldD "chunks").iterVals
    else ([], none)
  let r3 := { r2 with chunks := chunkStep.1 }
  match chunkStep.2 with
  | some e => { r3 with success := false, error_message := "Parse error: " ++ e }
  | none =>
  let tools :=                                   -- cpp 243-249
    if j.containsKey "suggested_tools" then collectTools (j.getFieldD "suggested_tools").iterVals
    else []
  { r3 with suggested_tools := tools }

/-! ## AugmentQuery orchestrator (rag_middleware.cpp, lines 88-140) -/

/-- Outcome of one `augment_query` call: the returned bundle plus the
bodies that reached the transport. -/
structure AugmentOutcome where
  response : RAGResponse
  requests : List Json
deriving Repr

/-- cpp 107-116: the request payload; `session_id` only when non-empty. -/
def buildRequestBody (cfg : RAGConfig) (query session_id : String) : Json :=
  .obj ([("query", .str query),
         ("max_results", .num cfg.max_results),
         ("similarity_threshold", .num cfg.similarity_threshold),
         ("include_tools", .bool cfg.include_tools)] ++
        (if session_id ≠ "" then [("session_id", .str session_id)] else []))

/-- cpp 88-140 `augment_query`.  `clientPresent` is whether `http_client_`
is non-null at call time; `elapsed` is the duration the wall clock reports
for the span from line 103 to line 133-136 (the clock is external).
The two precondition branches (93-101) return before `start_time` is ever
taken, leaving `latency_ms` unassigned.  Line 123 sets `success = true`
after `parse_response` has returned, on every dispatcher-success path.
The catch at 128-131 is unreachable here: `make_request` and
`parse_response` contain every fault the modelled operations can raise. -/
def augment_query (cfg : RAGConfig) (clientPresent : Bool)
    (query session_id : String)
    (transport : String → Json → Option HttpResp)
    (parseBody : String → Option Json)
    (elapsed : Rat) : AugmentOutcome :=
  -- cpp 90-91: default-constructed response, success set to false
  if !cfg.enabled then
    { response := { success := false, error_message := "RAG disabled" },
      requests := [] }                               -- cpp 93-96
  else if query = "" then
    { response := { success := false, error_message := "Empty query" },
      requests := [] }                               -- cpp 98-101
  else
    let body := buildRequestBody cfg query session_id
    let mr := make_request clientPresent transport parseBody "/api/v1/llama/augment" body
    let r : RAGResponse :=
      match mr.1 with
      | some j => { parse_response j with success := true }   -- cpp 122-123
      | none => { success := false,
                  error_message := "Failed to get response from Aurapai" }  -- cpp 125
    { response := { r with latency_ms := some elapsed },      -- cpp 133-137
      requests := mr.2 }

/-! ## ContextInjector (rag_middleware.cpp, lines 263-303) -/

/-- cpp 292 / cpp 321: `msg.contains("role") && msg["role"] == "user"`
(`json == "user"` is true exactly for the JSON string `"user"`). -/
def isUserMsg (m : Json) : Bool :=
  m.containsKey "role" &&
    (match m.getFieldD "role" with | .str s => s == "user" | _ => false)

/-- cpp 291-300: reverse iteration over the copied array; the first turn
with role `"user"` gets its content read (`value("content", "")`, cpp 293 —
throws on a present non-string content, nothing catches it) and rewritten
(cpp 296), then the loop breaks.  Stated over the reversed list. -/
def injectIntoRev (injection : String) : List Json → Except String (List Json)
  | [] => .ok []
  | m :: rest =>
    if isUserMsg m then
      match m.valueStr "content" "" with
      | .error e => .error e
      | .ok c =>
        .ok (m.setField "content"
              (.str (injection ++ "\n\nUser Query: " ++ c)) :: rest)
    else
      (injectIntoRev injection rest).map (m :: ·)

/-- cpp 263-303 `inject_context_into_messages`.  The current date is
external input (`today`, rendered `YYYY-MM-DD` by `put_time` at cpp 280).
A non-array input is returned unchanged (cpp 284-286). -/
def inject_context_into_messages (messages : Json) (rag_context today : String) :
    Except String Json :=
  let injection :=                                -- cpp 267-282
    if rag_context = "" then "[System Note] Current date: " ++ today
    else rag_context
  match messages with
  | .arr ms => (injectIntoRev injection ms.reverse).map (fun l => .arr l.reverse)
  | _ => .ok messages

/-! ## PolicyGate (rag_middleware.cpp, lines 307-327) -/

/-- cpp 307-327 `should_use_rag`.  `params["rag_enabled"].get<bool>()`
(cpp 311) throws when the stored value is not a boolean, and nothing in the
function catches it. -/
def should_use_rag (messages params : Json) : Except String Bool :=
  if params.containsKey "rag_enabled" then
    match params.getFieldD "rag_enabled" with
    | .bool b => .ok b                            -- cpp 311
    | _ => .error "type_error.302: type must be boolean"
  else
    match messages with
    | .arr ms =>
      if ms.isEmpty then .ok false                -- cpp 315-317
      else .ok (ms.any isUserMsg)                 -- cpp 320-326
    | _ => .ok false                              -- cpp 315 (!is_array)

/-! ## ContextFormatter (rag_middleware.cpp, lines 329-346)

`ostringstream << float` formatting is iostream-internal; the similarity
renderer is passed in as an oracle `render`. -/

/-- cpp 338-340: the text appended for chunk `i` (0-based in the loop, the
printed number is `i + 1`). -/
def chunkLine (render : Rat → String) (i : Nat) (c : ContextChunk) : String :=
  "\n[Source " ++ toString (i + 1) ++ ": " ++ c.source ++
    " (relevance: " ++ render c.similarity ++ ")]\n" ++ c.content ++ "\n"

/-- cpp 329-346 `format_rag_context`: empty input gives `""`; otherwise the
header is streamed first, then each chunk in index order, then the footer. -/
def format_rag_context (render : Rat → String) (chunks : List ContextChunk) : String :=
  if chunks.isEmpty then ""
  else
    (chunks.enum.foldl (fun acc ic => acc ++ chunkLine render ic.1 ic.2)
      "[Retrieved Context]\n") ++ "\n[End Retrieved Context]\n"

/-! ## Locking discipline (claim C5)

Each public operation is abstracted to the sequence of lock events and
`config_` / `http_client_` accesses it performs, read off the source line
by line.  An access is *guarded* when it happens at positive lock depth. -/

/-- One event in an operation's execution. -/
inductive Ev where
  | lock | unlock | cfgRead | cfgWrite | connRead | connWrite
deriving Repr, DecidableEq

/-- `accessesGuarded sel d tr`: every event of `tr` selected by `sel`
happens while the lock depth (starting at `d`) is positive. -/
def accessesGuarded (sel : Ev → Bool) : Nat → List Ev → Bool
  | _, [] => true
  | d, .lock :: r => accessesGuarded sel (d + 1) r
  | d, .unlock :: r => accessesGuarded sel (d - 1) r
  | d, e :: r => (!sel e || decide (0 < d)) && accessesGuarded sel d r

/-- Selects every `config_` or `http_client_` access. -/
def anyAccess : Ev → Bool
  | .cfgRead | .cfgWrite | .connRead | .connWrite => true
  | _ => false

/-- Selects only `http_client_` (connection state) accesses. -/
def connAccess : Ev → Bool
  | .connRead | .connWrite => true
  | _ => false

/-- cpp 187-221 `make_request`: lock (191), null check on `http_client_`
(193), POST through it (201), unlock at scope exit. -/
def make_request_trace : List Ev :=
  [.lock, .connRead, .connRead, .unlock]

/-- cpp 88-140 `augment_query`, full path: reads `config_.enabled` (93) and
the three request parameters (109-111) with no lock held, then runs
`make_request`. -/
def augment_query_trace : List Ev :=
  [.cfgRead, .cfgRead, .cfgRead, .cfgRead] ++ make_request_trace

/-- cpp 142-171 `is_healthy`: reads `config_.enabled` (143) before taking
the lock (148); null check (150) and GET (154) under the lock. -/
def is_healthy_trace : List Ev :=
  [.cfgRead, .lock, .connRead, .connRead, .unlock]

/-- hpp 90 `get_config`: returns a reference to `config_` with no lock. -/
def get_config_trace : List Ev :=
  [.cfgRead]

/-- cpp 173-185 `update_config`, soft-field change (no reinit): lock (174),
three comparisons against `config_` (176-178), store (180), unlock. -/
def update_config_soft_trace : List Ev :=
  [.lock, .cfgRead, .cfgRead, .cfgRead, .cfgWrite, .unlock]

/-! ## Spec-side rendering and concrete fixtures -/

/-- Spec-side: a list of text blocks laid out one after another, used to
state the "header, then each chunk in input order, then footer" shape of
the formatter's output. -/
def concatStrings : List String → String
  | [] => ""
  | s :: rest => s ++ concatStrings rest

/-- An enabled configuration with all other fields at their defaults. -/
def enabledCfg : RAGConfig := { enabled := true }

/-- A transport that always answers 200 with body `"B"`. -/
def okTransport : String → Json → Option HttpResp := fun _ _ => some ⟨200, "B"⟩

/-- A service payload whose `augmented_context` is a number: extracting it
as a string throws inside `parse_response`. -/
def badPayload1 : Json := .obj [("augmented_context", .num 5)]

/-- A service payload whose chunk list holds one good chunk followed by a
bare number: the second loop iteration throws after the first chunk has
already been pushed. -/
def badPayload2 : Json :=
  .obj [("chunks", .arr [.obj [("content", .str "a")], .num 5])]

/-- The reverse-proxy configuration from the spec's example: scheme-qualified
address plus a numeric port that the scheme should override. -/
def proxyCfg : RAGConfig :=
  { aurapai_host := "https://svc.example/", aurapai_port := 8001, enabled := true }

/-- `{"role": "system", "content": "S"}`. -/
def turnSystemS : Json := .obj [("role", .str "system"), ("content", .str "S")]

/-- `{"role": "user", "content": "A"}`. -/
def turnUserA : Json := .obj [("role", .str "user"), ("content", .str "A")]

/-- `{"role": "assistant", "content": "B"}`. -/
def turnAssistantB : Json := .obj [("role", .str "assistant"), ("content", .str "B")]

/-- `{"role": "user", "content": "C"}`. -/
def turnUserC : Json := .obj [("role", .str "user"), ("content", .str "C")]

/-- A sample chunk for witnessing the formatter claims. -/
def sampleChunk : ContextChunk := ⟨"body", "doc1", 3/10⟩

/-! ## Helper lemmas -/

theorem httpsScheme_pref_self (rest : List Char) :
    httpsScheme.isPrefixOf (httpsScheme ++ rest) = true := by
  show List.isPrefixOf ['h','t','t','p','s',':','/','/']
    (['h','t','t','p','s',':','/','/'] ++ rest) = true
  simp [List.isPrefixOf]

theorem httpScheme_pref_self (rest : List Char) :
    httpScheme.isPrefixOf (httpScheme ++ rest) = true := by
  show List.isPrefixOf ['h','t','t','p',':','/','/']
    (['h','t','t','p',':','/','/'] ++ rest) = true
  simp [List.isPrefixOf]

theorem httpsScheme_not_pref_http (rest : List Char) :
    httpsScheme.isPrefixOf (httpScheme ++ rest) = false := rfl

theorem drop8_append (rest : List Char) : (httpsScheme ++ rest).drop 8 = rest := rfl

theorem drop7_append (rest : List Char) : (httpScheme ++ rest).drop 7 = rest := rfl

theorem str_data_append (a b : String) : (a ++ b).data = a.data ++ b.data := by
  cases a; cases b; rfl

theorem str_append_empty (a : String) : a ++ "" = a := by
  cases a with
  | mk l => exact congrArg String.mk (List.append_nil l)

theorem str_append_assoc (a b c : String) : a ++ b ++ c = a ++ (b ++ c) := by
  cases a with
  | mk l₁ =>
    cases b with
    | mk l₂ =>
      cases c with
      | mk l₃ => exact congrArg String.mk (List.append_assoc l₁ l₂ l₃)

theorem foldl_append_concat (f : α → String) :
    ∀ (l : List α) (init : String),
      l.foldl (fun acc x => acc ++ f x) init = init ++ concatStrings (l.map f) := by
  intro l
  induction l with
  | nil => intro init; simp [concatStrings, str_append_empty]
  | cons a t ih =>
    intro init
    simp only [List.foldl_cons, List.map_cons, concatStrings]
    rw [ih (init ++ f a), str_append_assoc]

theorem mem_concat_of_elem (f : α → String) :
    ∀ (l : List α) (x : α), x ∈ l →
      (f x).data <:+: (concatStrings (l.map f)).data := by
  intro l
  induction l with
  | nil => intro x hx; cases hx
  | cons a t ih =>
    intro x hx
    simp only [List.map_cons, concatStrings, str_data_append]
    rcases List.mem_cons.mp hx with h | h
    · subst h
      exact ⟨[], (concatStrings (t.map f)).data, by simp⟩
    · rcases ih x h with ⟨s, u, hs⟩
      exact ⟨(f a).data ++ s, u, by rw [← hs]; simp [List.append_assoc]⟩

theorem source_in_chunkLine (render : Rat → String) (i : Nat) (c : ContextChunk) :
    c.source.data <:+: (chunkLine render i c).data := by
  refine ⟨("\n[Source " ++ toString (i + 1) ++ ": ").data,
    (" (relevance: " ++ render c.similarity ++ ")]\n" ++ c.content ++ "\n").data, ?_⟩
  simp [chunkLine, str_data_append, List.append_assoc]

theorem content_in_chunkLine (render : Rat → String) (i : Nat) (c : ContextChunk) :
    c.content.data <:+: (chunkLine render i c).data := by
  refine ⟨("\n[Source " ++ toString (i + 1) ++ ": " ++ c.source ++
    " (relevance: " ++ render c.similarity ++ ")]\n").data, ("\n" : String).data, ?_⟩
  simp [chunkLine, str_data_append, List.append_assoc]

theorem elem_extend_around (a b m big : List Char)
    (h : m <:+: big) : m <:+: (a ++ big ++ b) := by
  rcases h with ⟨s, t, hs⟩
  exact ⟨a ++ s, t ++ b, by rw [← hs]; simp [List.append_assoc]⟩

theorem mem_enumFrom_of_mem : ∀ (l : List ContextChunk) (c : ContextChunk) (n : Nat),
    c ∈ l → ∃ i, (i, c) ∈ l.enumFrom n := by
  intro l
  induction l with
  | nil => intro c n hc; cases hc
  | cons a t ih =>
    intro c n hc
    rcases List.mem_cons.mp hc with h | h
    · exact ⟨n, by simp [List.enumFrom, h]⟩
    · rcases ih c (n + 1) h with ⟨i, hi⟩
      exact ⟨i, by simp [List.enumFrom, hi]⟩

theorem injectIntoRev_no_user (inj : String) :
    ∀ l : List Json, (∀ m ∈ l, isUserMsg m = false) →
      injectIntoRev inj l = .ok l := by
  intro l
  induction l with
  | nil => intro _; rfl
  | cons a t ih =>
    intro h
    have ha : isUserMsg a = false := h a (by simp)
    have ht := ih (fun m hm => h m (by simp [hm]))
    simp [injectIntoRev, ha, ht, Except.map]

theorem injectIntoRev_found (inj : String) (u : Json) (c : String) :
    ∀ (l₁ : List Json) (l₂ : List Json),
      isUserMsg u = true → u.valueStr "content" "" = .ok c →
      (∀ m ∈ l₁, isUserMsg m = false) →
      injectIntoRev inj (l₁ ++ u :: l₂) =
        .ok (l₁ ++ u.setField "content" (.str (inj ++ "\n\nUser Query: " ++ c)) :: l₂) := by
  intro l₁
  induction l₁ with
  | nil =>
    intro l₂ hu hc _
    simp [injectIntoRev, hu, hc]
  | cons a t ih =>
    intro l₂ hu hc h₁
    have ha : isUserMsg a = false := h₁ a (by simp)
    have ht := ih l₂ hu hc (fun m hm => h₁ m (by simp [hm]))
    simp [injectIntoRev, ha, ht, Except.map]

theorem injectIntoRev_faults (inj : String) (u : Json) (e : String) :
    ∀ (l₁ : List Json) (l₂ : List Json),
      isUserMsg u = true → u.valueStr "content" "" = .error e →
      (∀ m ∈ l₁, isUserMsg m = false) →
      injectIntoRev inj (l₁ ++ u :: l₂) = .error e := by
  intro l₁
  induction l₁ with
  | nil =>
    intro l₂ hu hc _
    simp [injectIntoRev, hu, hc]
  | cons a t ih =>
    intro l₂ hu hc h₁
    have ha : isUserMsg a = false := h₁ a (by simp)
    have ht := ih l₂ hu hc (fun m hm => h₁ m (by simp [hm]))
    simp [injectIntoRev, ha, ht, Except.map]

/-! ## Claims -/

/-- C1: the claim says that when the dispatcher returns a payload but
response translation faults, `augment_query` returns a *failure* result.
The code does the opposite: line 123 unconditionally sets `success = true`
after `parse_response` has already flagged the failure, so at this
concrete faulting payload the bundle comes back with `success = true` even
though its error message carries the `"Parse error: "` prefix. -/
theorem C1_parse_fault_success_flag :
    (augment_query enabledCfg true "q" ""
        okTransport (fun _ => some badPayload1) 7).response.success = true
    ∧ "Parse error: ".data.isPrefixOf
        (augment_query enabledCfg true "q" ""
          okTransport (fun _ => some badPayload1) 7).response.error_message.data = true := by
  exact ⟨rfl, by decide⟩

/-- C2: the claim states the bundle invariant (message iff failure; failure
means no chunks; partial chunks discarded on a translation fault).  At this
payload — one well-formed chunk followed by a malformed one — the returned
bundle has `success = true`, a non-empty `"Parse error: "` message, and the
partially collected chunk still in it: all three parts of the invariant are
violated at once. -/
theorem C2_bundle_mix :
    (augment_query enabledCfg true "q" ""
        okTransport (fun _ => some badPayload2) 7).response.success = true
    ∧ (augment_query enabledCfg true "q" ""
        okTransport (fun _ => some badPayload2) 7).response.error_message ≠ ""
    ∧ "Parse error: ".data.isPrefixOf
        (augment_query enabledCfg true "q" ""
          okTransport (fun _ => some badPayload2) 7).response.error_message.data = true
    ∧ (augment_query enabledCfg true "q" ""
        okTransport (fun _ => some badPayload2) 7).response.chunks =
        [⟨"a", "unknown", 0⟩] := by
  refine ⟨rfl, by decide, by decide, rfl⟩

/-- C3 (counterexample): on the disabled and empty-query branches the code
returns before `start_time` is ever taken, so `latency_ms` is left
unassigned (`none`) — not "populated with a measured value" as claimed. -/
theorem C3_latency_unset_cex :
    (augment_query { enabled := false } true "hi" ""
        okTransport (fun _ => none) 0).response.latency_ms = none
    ∧ (augment_query enabledCfg true "" ""
        okTransport (fun _ => none) 0).response.latency_ms = none := ⟨rfl, rfl⟩

/-- C3 (amended): disabled gives failure `"RAG disabled"` and empty query
(when enabled) gives failure `"Empty query"`, both with no network request
and with `latency_ms` left unset; on every path past those two checks the
returned `latency_ms` is the measured duration. -/
theorem C3_precondition_branches (cfg : RAGConfig) (cp : Bool) (q sid : String)
    (transport : String → Json → Option HttpResp)
    (parseBody : String → Option Json) (elapsed : Rat) :
    (cfg.enabled = false →
      augment_query cfg cp q sid transport parseBody elapsed =
        { response := { augmented_context := "", chunks := [], suggested_tools := [],
                        latency_ms := none, success := false,
                        error_message := "RAG disabled" },
          requests := [] })
    ∧ (cfg.enabled = true → q = "" →
      augment_query cfg cp q sid transport parseBody elapsed =
        { response := { augmented_context := "", chunks := [], suggested_tools := [],
                        latency_ms := none, success := false,
                        error_message := "Empty query" },
          requests := [] })
    ∧ (cfg.enabled = true → q ≠ "" →
      (augment_query cfg cp q sid transport parseBody elapsed).response.latency_ms =
        some elapsed) := by
  refine ⟨?_, ?_, ?_⟩
  · intro h
    simp [augment_query, h]
  · intro h hq
    simp [augment_query, h, hq]
  · intro h hq
    simp only [augment_query, h, Bool.not_true, Bool.false_eq_true, if_false,
      if_neg hq]

/-- C3 (witness): the amended theorem applied to a concrete disabled
configuration. -/
theorem C3_precondition_branches_witness :
    augment_query { enabled := false } true "hi" "" okTransport (fun _ => none) 0 =
      { response := { augmented_context := "", chunks := [], suggested_tools := [],
                      latency_ms := none, success := false,
                      error_message := "RAG disabled" },
        requests := [] } :=
  (C3_precondition_branches { enabled := false } true "hi" "" okTransport
    (fun _ => none) 0).1 rfl

/-- C4: the claim says a hard-field change performs a full rebuild to
completion.  In the code `update_config` takes `config_mutex_` (line 174)
and then calls `init_http_client`, which immediately locks the same
non-recursive mutex again (line 29): the rebuild self-deadlocks instead of
completing.  Second conjunct: when the hard fields change but the new
configuration is disabled, no rebuild is even attempted (`need_reinit &&
config_.enabled`, line 182) and the stale connection handle survives a
host change — against the claim's "exactly when". -/
theorem C4_update_config_deadlock :
    update_config
        ⟨{ aurapai_host := "hostA", enabled := true },
         some ⟨"hostA".data, 8001, false⟩, false⟩
        { aurapai_host := "hostB", enabled := true } =
      .error "deadlock: config_mutex_ already held"
    ∧ update_config
        ⟨{ aurapai_host := "hostA", enabled := true },
         some ⟨"hostA".data, 8001, false⟩, false⟩
        { aurapai_host := "hostB", enabled := false } =
      .ok ⟨{ aurapai_host := "hostB", enabled := false },
           some ⟨"hostA".data, 8001, false⟩, false⟩ := ⟨rfl, rfl⟩

/-- C5 (counterexample): the claim — every configuration/connection access
of every operation happens under the lock — is false: `augment_query`
reads `config_.enabled` (line 93) and the request parameters (109-111)
before any lock is taken, `get_config` (hpp 90) returns the configuration
with no lock at all, and `is_healthy` reads `config_.enabled` (143) before
locking (148). -/
theorem C5_unlocked_access_cex :
    accessesGuarded anyAccess 0 augment_query_trace = false
    ∧ accessesGuarded anyAccess 0 get_config_trace = false
    ∧ accessesGuarded anyAccess 0 is_healthy_trace = false := by decide

/-- C5 (amended): every access to the connection state (`http_client_`)
does happen under the lock, and `make_request` and `update_config` keep
all their configuration accesses under the lock too; but the configuration
reads of `augment_query` and `is_healthy`, and all of `get_config`, happen
with no lock held. -/
theorem C5_locking_discipline :
    (accessesGuarded connAccess 0 augment_query_trace = true
     ∧ accessesGuarded connAccess 0 is_healthy_trace = true
     ∧ accessesGuarded connAccess 0 make_request_trace = true
     ∧ accessesGuarded connAccess 0 update_config_soft_trace = true
     ∧ accessesGuarded connAccess 0 get_config_trace = true)
    ∧ (accessesGuarded anyAccess 0 make_request_trace = true
       ∧ accessesGuarded anyAccess 0 update_config_soft_trace = true)
    ∧ (accessesGuarded anyAccess 0 augment_query_trace = false
       ∧ accessesGuarded anyAccess 0 is_healthy_trace = false
       ∧ accessesGuarded anyAccess 0 get_config_trace = false) := by decide

/-- C6: a host beginning with `"https://"` (resp. `"http://"`) yields a
connection to that host with the scheme and a trailing `/` stripped, on
port 443 (resp. 80) no matter what `aurapai_port` is configured; a host
with no scheme keeps the configured host (trailing `/` stripped) and
port. -/
theorem C6_scheme_override (cfg : RAGConfig) (client0 : Option ClientHandle)
    (rest : List Char) :
    (cfg.aurapai_host.data = httpsScheme ++ rest →
      init_http_client ⟨cfg, client0, false⟩ =
        .ok ⟨cfg, some ⟨stripTrailingSlash rest, 443, true⟩, false⟩)
    ∧ (cfg.aurapai_host.data = httpScheme ++ rest →
      init_http_client ⟨cfg, client0, false⟩ =
        .ok ⟨cfg, some ⟨stripTrailingSlash rest, 80, false⟩, false⟩)
    ∧ (httpsScheme.isPrefixOf cfg.aurapai_host.data = false →
      httpScheme.isPrefixOf cfg.aurapai_host.data = false →
      init_http_client ⟨cfg, client0, false⟩ =
        .ok ⟨cfg, some ⟨stripTrailingSlash cfg.aurapai_host.data,
                        cfg.aurapai_port, false⟩, false⟩) := by
  refine ⟨?_, ?_, ?_⟩
  · intro h
    simp [init_http_client, deriveTarget, h, httpsScheme_pref_self, drop8_append]
  · intro h
    simp [init_http_client, deriveTarget, h, httpScheme_pref_self,
      httpsScheme_not_pref_http, drop7_append]
  · intro h1 h2
    simp [init_http_client, deriveTarget, h1, h2]

/-- C6 (witness): the spec's own example — `"https://svc.example/"` with
configured port 8001 connects to `svc.example` on port 443 over TLS. -/
theorem C6_scheme_override_witness :
    init_http_client ⟨proxyCfg, none, false⟩ =
      .ok ⟨proxyCfg, some ⟨"svc.example".data, 443, true⟩, false⟩ := by
  have h := (C6_scheme_override proxyCfg none "svc.example/".data).1 (by decide)
  exact h

/-- C7 (counterexample): the claim admits every 2xx status, but the code
accepts only exactly 200 (line 210): a 201 response with a perfectly
parsable body is rejected. -/
theorem C7_status_201_cex :
    ((200 : Int) ≤ 201 ∧ (201 : Int) < 300)
    ∧ (make_request true (fun _ _ => some ⟨201, "ok"⟩)
        (fun _ => some (Json.obj []))
        "/api/v1/llama/augment" (Json.obj [])).1 = none := ⟨by decide, rfl⟩

/-- C7 (amended): `make_request` fails when the transport yields no
response, or the status is not exactly 200, or the body is unparsable; it
returns a payload exactly when the client exists, the transport answered
with status 200, and the body parsed. -/
theorem C7_make_request_outcomes (cp : Bool)
    (transport : String → Json → Option HttpResp)
    (parseBody : String → Option Json) (endpoint : String) (body : Json) :
    (transport endpoint body = none →
      (make_request cp transport parseBody endpoint body).1 = none)
    ∧ (∀ r : HttpResp, transport endpoint body = some r → r.status ≠ 200 →
      (make_request cp transport parseBody endpoint body).1 = none)
    ∧ (∀ j : Json, (make_request cp transport parseBody endpoint body).1 = some j ↔
      (cp = true ∧ ∃ r : HttpResp, transport endpoint body = some r ∧
        r.status = 200 ∧ parseBody r.body = some j)) := by
  refine ⟨?_, ?_, ?_⟩
  · intro h
    cases cp <;> simp [make_request, h]
  · intro r hr hst
    cases cp <;> simp [make_request, hr, bne_iff_ne, hst]
  · intro j
    constructor
    · intro h
      cases cp with
      | false => simp [make_request] at h
      | true =>
        cases htr : transport endpoint body with
        | none => simp [make_request, htr] at h
        | some r =>
          by_cases hst : r.status = 200
          · refine ⟨rfl, r, rfl, hst, ?_⟩
            simpa [make_request, htr, hst] using h
          · simp [make_request, htr, bne_iff_ne, hst] at h
    · rintro ⟨hcp, r, htr, hst, hp⟩
      subst hcp
      simp [make_request, htr, hst, hp]

/-- C7 (witness): the amended theorem applied to a transport that yields no
response at all. -/
theorem C7_make_request_outcomes_witness :
    (make_request true (fun _ _ => none) (fun _ => none)
      "/api/v1/llama/augment" Json.null).1 = none :=
  (C7_make_request_outcomes true (fun _ _ => none) (fun _ => none)
    "/api/v1/llama/augment" Json.null).1 rfl

/-- C8 (counterexample): the claim promises that the first user turn's
content is replaced (or, failing a user turn / an array, the transcript is
returned unchanged).  On a transcript whose user turn carries a non-string
content, `it->value("content", "")` (line 293) throws, nothing catches it,
and neither a rewritten nor an unchanged transcript is returned. -/
theorem C8_nonstring_content_cex :
    inject_context_into_messages
        (.arr [.obj [("role", .str "user"), ("content", .num 5)]])
        "CTX" "2026-01-01" =
      .error "type_error.302: type must be string" := rfl

/-- C8 (amended): on a non-array the transcript is returned unchanged; on
an array with no `"user"` turn it is returned unchanged; otherwise the
turn with role `"user"` closest to the end has its content replaced by
`injection ++ "\n\nUser Query: " ++ content` — where the injection is the
given context, or `"[System Note] Current date: " ++ today` when that
context is empty — with every other turn kept exactly as given; and when
that turn's content is present but not a string the call faults instead of
returning a transcript. -/
theorem C8_inject_behaviour (rag_context today : String) :
    (∀ messages : Json, messages.isArr = false →
      inject_context_into_messages messages rag_context today = .ok messages)
    ∧ (∀ ms : List Json, (∀ m ∈ ms, isUserMsg m = false) →
      inject_context_into_messages (.arr ms) rag_context today = .ok (.arr ms))
    ∧ (∀ (pre post : List Json) (u : Json) (c : String),
      isUserMsg u = true → (∀ m ∈ post, isUserMsg m = false) →
      u.valueStr "content" "" = .ok c →
      inject_context_into_messages (.arr (pre ++ u :: post)) rag_context today =
        .ok (.arr (pre ++
          u.setField "content" (.str
            ((if rag_context = "" then "[System Note] Current date: " ++ today
              else rag_context) ++ "\n\nUser Query: " ++ c)) :: post)))
    ∧ (∀ (pre post : List Json) (u : Json) (e : String),
      isUserMsg u = true → (∀ m ∈ post, isUserMsg m = false) →
      u.valueStr "content" "" = .error e →
      inject_context_into_messages (.arr (pre ++ u :: post)) rag_context today =
        .error e) := by
  refine ⟨?_, ?_, ?_, ?_⟩
  · intro messages h
    cases messages <;> simp_all [Json.isArr, inject_context_into_messages]
  · intro ms h
    have h' : ∀ m ∈ ms.reverse, isUserMsg m = false := by
      intro m hm; exact h m (List.mem_reverse.mp hm)
    simp [inject_context_into_messages, injectIntoRev_no_user _ _ h', Except.map]
  · intro pre post u c hu hpost hc
    have hrev : (pre ++ u :: post).reverse = post.reverse ++ u :: pre.reverse := by
      simp [List.reverse_append]
    have hpost' : ∀ m ∈ post.reverse, isUserMsg m = false := by
      intro m hm; exact hpost m (List.mem_reverse.mp hm)
    simp only [inject_context_into_messages, hrev]
    rw [injectIntoRev_found _ _ _ _ _ hu hc hpost']
    simp [Except.map, List.reverse_append]
  · intro pre post u e hu hpost hc
    have hrev : (pre ++ u :: post).reverse = post.reverse ++ u :: pre.reverse := by
      simp [List.reverse_append]
    have hpost' : ∀ m ∈ post.reverse, isUserMsg m = false := by
      intro m hm; exact hpost m (List.mem_reverse.mp hm)
    simp only [inject_context_into_messages, hrev]
    rw [injectIntoRev_faults _ _ _ _ _ hu hc hpost']
    rfl

/-- C8 (witness): the spec's example transcript
`[{"system","S"},{"user","A"},{"assistant","B"},{"user","C"}]` with
injection `"CTX"`: only the last turn is rewritten, to
`"CTX\n\nUser Query: C"`. -/
theorem C8_inject_behaviour_witness :
    inject_context_into_messages
        (.arr [turnSystemS, turnUserA, turnAssistantB, turnUserC])
        "CTX" "2026-01-01" =
      .ok (.arr [turnSystemS, turnUserA, turnAssistantB,
        .obj [("role", .str "user"),
              ("content", .str "CTX\n\nUser Query: C")]]) := by
  have h := (C8_inject_behaviour "CTX" "2026-01-01").2.2.1
    [turnSystemS, turnUserA, turnAssistantB] [] turnUserC "C"
    rfl (by simp) rfl
  exact h

/-- C9 (counterexample): the claim says `should_use_rag` never propagates a
fault and that a non-boolean `rag_enabled` falls through to the transcript
check.  The code calls `params["rag_enabled"].get<bool>()` (line 311)
whenever the key is present: on a string value it throws out of the
function instead of returning `true` for this user-turn transcript. -/
theorem C9_nonbool_flag_cex :
    should_use_rag
        (.arr [.obj [("role", .str "user"), ("content", .str "hi")]])
        (.obj [("rag_enabled", .str "yes")]) =
      .error "type_error.302: type must be boolean" := rfl

/-- C9 (amended): a boolean `rag_enabled` in params is returned as-is and
short-circuits everything else; a present non-boolean `rag_enabled` makes
the call fault; with no `rag_enabled`, a non-array transcript gives
`false` and an array gives `true` exactly when some turn has role
`"user"` (in particular `false` for the empty array). -/
theorem C9_policy_gate (messages params : Json) :
    (∀ b : Bool, params.getField "rag_enabled" = some (.bool b) →
      should_use_rag messages params = .ok b)
    ∧ (∀ v : Json, params.getField "rag_enabled" = some v →
      (∀ b : Bool, v ≠ .bool b) →
      should_use_rag messages params =
        .error "type_error.302: type must be boolean")
    ∧ (params.containsKey "rag_enabled" = false → messages.isArr = false →
      should_use_rag messages params = .ok false)
    ∧ (∀ ms : List Json, params.containsKey "rag_enabled" = false →
      messages = .arr ms →
      (should_use_rag messages params = .ok (ms.any isUserMsg)
       ∧ (ms.any isUserMsg = true ↔ ∃ m ∈ ms, isUserMsg m = true))) := by
  refine ⟨?_, ?_, ?_, ?_⟩
  · intro b h
    cases params <;> simp [Json.getField] at h
    case obj fs =>
      simp [should_use_rag, Json.containsKey, Json.getFieldD, Json.getField, h]
  · intro v h hnb
    cases params <;> simp [Json.getField] at h
    case obj fs =>
      cases v with
      | bool b => exact absurd rfl (hnb b)
      | null =>
        simp [should_use_rag, Json.containsKey, Json.getFieldD, Json.getField, h]
      | num n =>
        simp [should_use_rag, Json.containsKey, Json.getFieldD, Json.getField, h]
      | str s =>
        simp [should_use_rag, Json.containsKey, Json.getFieldD, Json.getField, h]
      | arr xs =>
        simp [should_use_rag, Json.containsKey, Json.getFieldD, Json.getField, h]
      | obj gs =>
        simp [should_use_rag, Json.containsKey, Json.getFieldD, Json.getField, h]
  · intro h hm
    cases messages <;> simp_all [Json.isArr, should_use_rag]
  · intro ms h hm
    subst hm
    refine ⟨?_, by simp [List.any_eq_true]⟩
    by_cases he : ms.isEmpty
    · have : ms = [] := by simpa [List.isEmpty_iff] using he
      subst this
      simp [should_use_rag, h]
    · simp [should_use_rag, h, he]

/-- C9 (witness): the amended theorem applied to params that explicitly
disable RAG over a transcript that does contain a user turn. -/
theorem C9_policy_gate_witness :
    should_use_rag
        (.arr [.obj [("role", .str "user"), ("content", .str "hi")]])
        (.obj [("rag_enabled", .bool false)]) = .ok false :=
  (C9_policy_gate (.arr [.obj [("role", .str "user"), ("content", .str "hi")]])
    (.obj [("rag_enabled", .bool false)])).1 false rfl

/-- C10: formatting the empty chunk list gives the empty string; a
non-empty list renders as the header, then — in input order — for each
chunk a block holding `"Source N: <source> (relevance: <similarity>)"`
with N the 1-based index followed by that chunk's content, then the
footer; consequently each chunk's source and content occur verbatim in
the output. -/
theorem C10_format_structure (render : Rat → String) :
    format_rag_context render [] = ""
    ∧ (∀ chunks : List ContextChunk, chunks ≠ [] →
      format_rag_context render chunks =
        "[Retrieved Context]\n" ++
        concatStrings (chunks.enum.map (fun ic => chunkLine render ic.1 ic.2)) ++
        "\n[End Retrieved Context]\n")
    ∧ (∀ (chunks : List ContextChunk) (c : ContextChunk), c ∈ chunks →
      c.source.data <:+: (format_rag_context render chunks).data
      ∧ c.content.data <:+: (format_rag_context render chunks).data) := by
  have hmain : ∀ chunks : List ContextChunk, chunks ≠ [] →
      format_rag_context render chunks =
        "[Retrieved Context]\n" ++
        concatStrings (chunks.enum.map (fun ic => chunkLine render ic.1 ic.2)) ++
        "\n[End Retrieved Context]\n" := by
    intro chunks h
    rw [format_rag_context, if_neg (by simpa using h), foldl_append_concat]
  refine ⟨rfl, hmain, ?_⟩
  intro chunks c hc
  have hne : chunks ≠ [] := List.ne_nil_of_mem hc
  rcases mem_enumFrom_of_mem chunks c 0 hc with ⟨i, hi⟩
  have hline : (chunkLine render i c).data <:+:
      (concatStrings (chunks.enum.map (fun ic => chunkLine render ic.1 ic.2))).data := by
    have := mem_concat_of_elem (fun ic : Nat × ContextChunk => chunkLine render ic.1 ic.2)
      chunks.enum (i, c) hi
    simpa using this
  constructor
  · rw [hmain chunks hne, str_data_append, str_data_append]
    exact elem_extend_around _ _ _ _
      ((source_in_chunkLine render i c).trans hline)
  · rw [hmain chunks hne, str_data_append, str_data_append]
    exact elem_extend_around _ _ _ _
      ((content_in_chunkLine render i c).trans hline)

/-- C10 (witness): one concrete chunk, with the output also evaluated to
its literal text. -/
theorem C10_format_structure_witness :
    format_rag_context (fun _ => "0.3") [sampleChunk] =
      "[Retrieved Context]\n" ++
      concatStrings ([sampleChunk].enum.map
        (fun ic => chunkLine (fun _ => "0.3") ic.1 ic.2)) ++
      "\n[End Retrieved Context]\n"
    ∧ format_rag_context (fun _ => "0.3") [sampleChunk] =
      "[Retrieved Context]\n\n[Source 1: doc1 (relevance: 0.3)]\nbody\n\n[End Retrieved Context]\n" :=
  ⟨(C10_format_structure (fun _ => "0.3")).2.1 [sampleChunk] (by simp), rfl⟩

end Llama
